import Mathlib

/-!
Verification of the seastar RPC implementation (`src/rpc/rpc_impl.hh`):
a shallow embedding of the wire codec, the marshaller, the client
correlator and the server dispatch path, with theorems checking the
natural-language specification against the code.

Bytes are modelled as `Nat` (each in `[0, 256)` when produced by the
encoders); buffers are `List Nat`; machine integers are `Nat`/`Int`
with explicit reductions modulo `2 ^ w` where the code relies on
wrap-around.
-/

namespace SeastarRpc

/-! ## Definitions

### Little-endian integer codec (`write_le` / `read_le`) -/

/-- Model of `write_le<uintN_t>`: the `n` little-endian bytes of `x`. -/
def writeLeBytes : Nat → Nat → List Nat
  | 0, _ => []
  | n + 1, x => (x % 256) :: writeLeBytes n (x / 256)

/-- Model of `read_le`: reassemble a little-endian byte list into an unsigned value. -/
def readLeBytes (bs : List Nat) : Nat :=
  bs.foldr (fun b acc => b + 256 * acc) 0

/-- Model of `write_le<int64_t>`: a signed 64-bit value is written as its two's
complement residue modulo `2 ^ 64`. -/
def writeLeI64 (x : Int) : List Nat :=
  writeLeBytes 8 (x % (2 ^ 64 : Int)).toNat

/-- Model of `read_le<int64_t>`: reassemble 8 little-endian bytes and reinterpret
the unsigned value in two's complement. -/
def readLeI64 (bs : List Nat) : Int :=
  let u := readLeBytes bs
  if u < 2 ^ 63 then (u : Int) else (u : Int) - 2 ^ 64

/-! ### Marshaller (`marshall` / `unmarshall`, `rpc_impl.hh` lines 149-206)

The marshaller is parametric over the user `Serializer`.  A declared
parameter type is either a ground type (identified by an opaque tag the
serializer understands) or `optional` of a ground type; a typed argument
value pairs a tag with a value of the semantic domain `V`. -/

/-- A declared RPC parameter type: a ground serializer type `tag`, or
`optional<T>` of a ground type (`remove_optional` collapses nesting, so
only ground types appear under `opt`). -/
inductive RpcType where
  | plain (tag : Nat) : RpcType
  | opt (tag : Nat) : RpcType
deriving DecidableEq, Repr

/-- A typed argument value: a ground value, or an `optional` value. -/
inductive RpcVal (V : Type) where
  | plain (tag : Nat) (v : V) : RpcVal V
  | opt (tag : Nat) (o : Option V) : RpcVal V
deriving DecidableEq, Repr

/-- The declared type of a typed argument value. -/
def RpcVal.typeOf {V : Type} : RpcVal V → RpcType
  | .plain t _ => .plain t
  | .opt t _ => .opt t

/-- The user `Serializer`, seen through the interface the core consumes:
`write(serializer, out, v)` appends bytes, `read(serializer, in, type<T>())`
consumes bytes from the front of the input and returns the value read
together with the remaining input.  `writeOpt` is the user's encoding of an
`optional` argument value (the decode side, not the serializer, supplies
the optional-trailing-argument convention). -/
structure Serializer (V : Type) where
  write : Nat → V → List Nat
  writeOpt : Nat → Option V → List Nat
  read : Nat → List Nat → V × List Nat

/-- Model of `marshall_one`: serialize one argument (the smart-pointer unwrap of
`serialize_helper` is the identity at this level of modelling; an
`optional` argument is handed to the user serializer). -/
def marshallOne {V : Type} (s : Serializer V) : RpcVal V → List Nat
  | .plain t v => s.write t v
  | .opt t o => s.writeOpt t o

/-- Model of `do_marshall`: serialize the arguments left to right into the output
stream. -/
def doMarshall {V : Type} (s : Serializer V) : List (RpcVal V) → List Nat
  | [] => []
  | a :: r => marshallOne s a ++ doMarshall s r

/-- Model of `marshall`: measure, allocate `size + head_space` bytes, and write the
serialized arguments starting at offset `head_space` (the reserved header
bytes are uninitialized; they are modelled as zeros). -/
def marshall {V : Type} (s : Serializer V) (headSpace : Nat) (args : List (RpcVal V)) : List Nat :=
  List.replicate headSpace 0 ++ doMarshall s args

/-- Model of `unmarshal_one`: read one value of the declared type from the input.
For `optional<T>` the code checks `in.size()`: if bytes remain it reads a
`T` and wraps it, otherwise it returns the empty optional and consumes
nothing. -/
def unmarshalOne {V : Type} (s : Serializer V) : RpcType → List Nat → RpcVal V × List Nat
  | .plain t, input =>
    let p := s.read t input
    (.plain t p.1, p.2)
  | .opt t, input =>
    if 0 < input.length then
      let p := s.read t input
      (.opt t (some p.1), p.2)
    else
      (.opt t none, input)

/-- Model of `do_unmarshall`: read the declared types left to right. -/
def doUnmarshall {V : Type} (s : Serializer V) : List RpcType → List Nat → List (RpcVal V)
  | [], _ => []
  | t :: ts, input =>
    let p := unmarshalOne s t input
    p.1 :: doUnmarshall s ts p.2

/-- Model of `unmarshall`: wrap the payload in a `simple_input_stream` and run
`do_unmarshall` over the declared types. -/
def unmarshall {V : Type} (s : Serializer V) (ts : List RpcType) (input : List Nat) : List (RpcVal V) :=
  doUnmarshall s ts input

/-- A serializer honours its contract when reading back a written value
consumes exactly the written bytes and returns the value. -/
def Serializer.RoundTrips {V : Type} (s : Serializer V) : Prop :=
  ∀ t v rest, s.read t (s.write t v ++ rest) = (v, rest)

/-- The optional-argument wire convention: a present optional is written
as its bare payload and an absent optional writes nothing. -/
def Serializer.OptConvention {V : Type} (s : Serializer V) : Prop :=
  (∀ t v, s.writeOpt t (some v) = s.write t v) ∧ (∀ t, s.writeOpt t none = [])

/-- Every argument in the list is an absent optional. -/
def allNoneOpt {V : Type} (args : List (RpcVal V)) : Prop :=
  ∀ a ∈ args, ∃ t, a = RpcVal.opt t none

/-- The tuples the optional-trailing-argument convention can decode: a
present optional must serialize to at least one byte, and once an absent
optional appears only absent optionals may follow. -/
def decodableArgs {V : Type} (s : Serializer V) : List (RpcVal V) → Prop
  | [] => True
  | .plain _ _ :: r => decodableArgs s r
  | .opt t (some v) :: r => s.write t v ≠ [] ∧ decodableArgs s r
  | .opt _ none :: r => allNoneOpt r

/-! ### Exception records (`unmarshal_exception`, lines 208-233) -/

/-- The errors the client can surface, together with the remote errors
reconstructed by `unmarshal_exception` (`std::runtime_error` for `USER`,
`unknown_verb_error`, `unknown_exception_error`). -/
inductive RpcError where
  | closedError : RpcError
  | rpcProtocolError : RpcError
  | timeoutError : RpcError
  | canceledError : RpcError
  | userError (msg : List Nat) : RpcError
  | unknownVerbError (ty : Nat) : RpcError
  | unknownExceptionError : RpcError
deriving DecidableEq, Repr

/-- The decoded form of an exception payload. -/
inductive RpcExceptionResult where
  | user (msg : List Nat) : RpcExceptionResult
  | unknownVerb (ty : Nat) : RpcExceptionResult
  | unknownException : RpcExceptionResult
deriving DecidableEq, Repr

/-- The exception carried by a decoded exception record. -/
def exToError : RpcExceptionResult → RpcError
  | .user m => .userError m
  | .unknownVerb t => .unknownVerbError t
  | .unknownException => .unknownExceptionError

/-- Model of `unmarshal_exception`: read the 4-byte kind and 4-byte length, then
the kind-specific payload.  The inner `get` helper throws
`rpc_protocol_error` (modelled as `Except.error`) when fewer bytes remain
than requested.  `USER` (kind 0) consumes `len` message bytes;
`UNKNOWN_VERB` (kind 1) consumes 8 bytes of message type; any other kind
becomes `unknown_exception_error`. -/
def unmarshalException (data : List Nat) : Except RpcError RpcExceptionResult :=
  if data.length < 4 then .error .rpcProtocolError
  else
    let exType := readLeBytes (data.take 4)
    let d1 := data.drop 4
    if d1.length < 4 then .error .rpcProtocolError
    else
      let exLen := readLeBytes (d1.take 4)
      let d2 := d1.drop 4
      if exType = 0 then
        if d2.length < exLen then .error .rpcProtocolError
        else .ok (.user (d2.take exLen))
      else if exType = 1 then
        if d2.length < 8 then .error .rpcProtocolError
        else .ok (.unknownVerb (readLeBytes (d2.take 8)))
      else .ok .unknownException

/-! ### Client correlator (`shelper::send`, reply dispatch in
`client::client`, lines 314-336 and 985-1007) -/

/-- The observable per-connection client state: the `_error` flag, the
message-id counter, the `_outstanding` map (as the list of pending ids),
the queue handed to the send loop, the `replied` / `exception_received`
statistics, and the completions delivered to pending futures. -/
structure ClientState where
  error : Bool
  counter : Int
  outstanding : List Nat
  sendQueue : List (List Nat)
  replied : Nat
  exceptionReceived : Nat
  completions : List (Nat × Except RpcError (List Nat))
deriving Repr

/-- The request frame built by `shelper::send`: `marshall` with 28 bytes
of head space, then the message type at offset 8, the message id at
offset 16 and the payload length at offset 24 (the first 8 bytes are the
expiration field, filled later by the send path). -/
def requestFrameBytes {V : Type} (s : Serializer V) (t : Nat) (msgId : Int)
    (args : List (RpcVal V)) : List Nat :=
  List.replicate 8 0 ++ writeLeBytes 8 t ++ writeLeI64 msgId ++
    writeLeBytes 4 (doMarshall s args).length ++ doMarshall s args

/-- Outcome of `shelper::send` as seen by the caller. -/
inductive SendResult where
  | failedClosed : SendResult
  | queued (msgId : Int) : SendResult
deriving DecidableEq, Repr

/-- Model of `shelper::send`: if the connection is in error, return a ready failed
future with `closed_error`; otherwise allocate the next message id,
marshall the frame, install the reply handler when a reply is expected,
and enqueue the frame.  (The id allocation and handler installation live
in the `client` class declared outside `src/`; they follow spec §4.7
steps 2-5.) -/
def clientSend {V : Type} (s : Serializer V) (st : ClientState) (t : Nat)
    (args : List (RpcVal V)) (wantReply : Bool) : ClientState × SendResult :=
  if st.error then (st, .failedClosed)
  else
    let msgId := st.counter + 1
    let frame := requestFrameBytes s t msgId args
    ({ st with
        counter := msgId,
        outstanding := if wantReply then st.outstanding ++ [msgId.toNat] else st.outstanding,
        sendQueue := st.sendQueue ++ [frame] },
      .queued msgId)

/-- The client read-loop body for one decoded response frame
(`client::client`, lines 985-1007): on a short read (`!data`) set
`_error`; with a pending entry for `|msg_id|`, remove it and run the
reply handler (positive id: deliver the payload and bump `replied`;
negative id: bump `exception_received` and deliver the decoded exception
-- a decode throw escapes the handler and poisons the connection);
without a pending entry, a negative id is decoded and ignored when it is
`UNKNOWN_VERB`, any other outcome sets `_error`; a positive id without an
entry is silently ignored. -/
def handleResponse (st : ClientState) (msgId : Int) (data : Option (List Nat)) : ClientState :=
  match data with
  | none => { st with error := true }
  | some d =>
    if st.outstanding.contains msgId.natAbs then
      let st1 := { st with outstanding := st.outstanding.erase msgId.natAbs }
      if 0 ≤ msgId then
        { st1 with
            replied := st1.replied + 1,
            completions := st1.completions ++ [(msgId.natAbs, Except.ok d)] }
      else
        match unmarshalException d with
        | .ok ex =>
          { st1 with
              exceptionReceived := st1.exceptionReceived + 1,
              completions := st1.completions ++ [(msgId.natAbs, Except.error (exToError ex))] }
        | .error _ =>
          { st1 with exceptionReceived := st1.exceptionReceived + 1, error := true }
    else if msgId < 0 then
      match unmarshalException d with
      | .ok (.unknownVerb _) => st
      | _ => { st with error := true }
    else
      st

/-! ### Pending reply handlers (`rcv_reply_base`, lines 235-249) -/

/-- The state of one pending reply handler: the `done` flag and the
completions delivered to its promise (each `set_value`/`set_exception`
appends one; "exactly once" means the list ends with length one). -/
structure RcvReplyBase (α : Type) where
  done : Bool
  completions : List (Except RpcError α)

/-- A freshly installed handler: not done, promise untouched. -/
def RcvReplyBase.fresh {α : Type} : RcvReplyBase α := ⟨false, []⟩

/-- Model of `set_value`: mark done and fulfill the promise. -/
def RcvReplyBase.setValue {α : Type} (r : RcvReplyBase α) (v : α) : RcvReplyBase α :=
  ⟨true, r.completions ++ [.ok v]⟩

/-- Model of `p.set_exception`: fail the promise (the base class leaves `done`
untouched; the reply lambda sets it separately). -/
def RcvReplyBase.setException {α : Type} (r : RcvReplyBase α) (e : RpcError) : RcvReplyBase α :=
  ⟨r.done, r.completions ++ [.error e]⟩

/-- The `~rcv_reply_base` destructor: a handler destroyed while not done
fails its promise with `closed_error`. -/
def RcvReplyBase.destruct {α : Type} (r : RcvReplyBase α) : RcvReplyBase α :=
  if r.done then r else ⟨r.done, r.completions ++ [.error .closedError]⟩

/-- The possible lifecycles of a pending reply handler: dropped without a
delivery (timeout, cancellation, connection teardown), a delivered value,
a delivered exception (the `wait_for_reply` lambda at lines 285-286 sets
`done` and then fails the promise), or the decode-throw path: the lambda
has already executed `r.done = true` when `unmarshal_exception(data)`,
evaluated as the argument of `set_exception`, throws on a truncated
record, so `set_exception` never runs and the handler is destroyed
mid-unwind with `done` already set. -/
inductive HandlerFate (α : Type) where
  | neverInvoked : HandlerFate α
  | replyValue (v : α) : HandlerFate α
  | replyException (e : RpcError) : HandlerFate α
  | decodeThrew : HandlerFate α
deriving DecidableEq, Repr

/-- Run a handler lifecycle to destruction from the fresh state. -/
def runFate {α : Type} : HandlerFate α → RcvReplyBase α
  | .neverInvoked => RcvReplyBase.destruct RcvReplyBase.fresh
  | .replyValue v => RcvReplyBase.destruct (RcvReplyBase.setValue RcvReplyBase.fresh v)
  | .replyException e =>
    RcvReplyBase.destruct
      (RcvReplyBase.setException { RcvReplyBase.fresh with done := true } e)
  | .decodeThrew => RcvReplyBase.destruct { RcvReplyBase.fresh with done := true }

/-! ### Handler invocation (`apply`, lines 399-407) -/

/-- What a registered handler does when invoked: return a value, return
an already-failed future, throw synchronously an exception derived from
`std::runtime_error`, or throw synchronously any other exception. -/
inductive HandlerBehavior (α : Type) where
  | returns (v : α) : HandlerBehavior α
  | failedFuture (e : RpcError) : HandlerBehavior α
  | throwsRuntimeError (msg : List Nat) : HandlerBehavior α
  | throwsOther : HandlerBehavior α
deriving DecidableEq, Repr

/-- The outcome of a call that may either return a future or throw a C++
exception synchronously. -/
inductive SyncOrFuture (α : Type) where
  | future (f : Except RpcError α) : SyncOrFuture α
  | thrownRuntime (msg : List Nat) : SyncOrFuture α
  | thrownOther : SyncOrFuture α
deriving Repr

/-- Modelled from the spec: `futurize<Ret>::apply` belongs to the external
cooperative task runtime (`core/future-util.hh`, absent from `src/`),
which spec §1 scopes out and specifies "only through the interface the
core consumes"; per that interface it invokes the handler and returns its
future, so a synchronous throw propagates to the caller. -/
def futurizeApply {α : Type} : HandlerBehavior α → SyncOrFuture α
  | .returns v => .future (.ok v)
  | .failedFuture e => .future (.error e)
  | .throwsRuntimeError m => .thrownRuntime m
  | .throwsOther => .thrownOther

/-- Model of `apply` (lines 399-407): run `futurator::apply` inside a `try` block
that catches `std::runtime_error&` only, converting such a throw into a
failed future carrying the current exception; any other synchronous throw
escapes uncaught (`Except.error ()`). -/
def rpcApply {α : Type} (b : HandlerBehavior α) : Except Unit (Except RpcError α) :=
  match futurizeApply b with
  | .future f => .ok f
  | .thrownRuntime m => .ok (.error (.userError m))
  | .thrownOther => .error ()

/-! ### Server dispatch (`reply`, `recv_helper`, `process`,
lines 354-445 and 859-909) -/

/-- The response frame produced by `reply` + `respond` for a `wait`-mode
handler: on success, the marshalled return values behind a 12-byte header
carrying `msg_id` and the payload length; on a failed future, a `USER`
exception record (kind 0, the `what()` string) behind the same header
with the id negated. -/
def serverReply {V : Type} (s : Serializer V) (msgId : Int)
    (ret : Except (List Nat) (List (RpcVal V))) : List Nat :=
  match ret with
  | .ok vals =>
    writeLeI64 msgId ++ writeLeBytes 4 (doMarshall s vals).length ++ doMarshall s vals
  | .error msg =>
    writeLeI64 (-msgId) ++ writeLeBytes 4 (8 + msg.length) ++
      writeLeBytes 4 0 ++ writeLeBytes 4 msg.length ++ msg

/-- The 28-byte unknown-verb reply built in `process` (lines 877-889):
`respond` fills `-msg_id` at offset 0 and the payload length
`28 - 12 = 16` at offset 8; the payload is the exception record
`UNKNOWN_VERB` (kind 1), declared length 8, and the offending message
type. -/
def unknownVerbReplyFrame (msgId : Int) (ty : Nat) : List Nat :=
  writeLeI64 (-msgId) ++ writeLeBytes 4 16 ++
    writeLeBytes 4 1 ++ writeLeBytes 4 8 ++ writeLeBytes 8 ty

/-- A decoded request frame as seen by the dispatch path. -/
structure Request where
  msgId : Int
  msgType : Nat
  payloadLen : Nat
deriving DecidableEq, Repr

/-- The resource-relevant events of processing one request: a semaphore
admission, the reply frame handed to the send loop, and the release. -/
inductive ServerEvent where
  | acquire (w : Nat) : ServerEvent
  | sendReply (frame : List Nat) : ServerEvent
  | release (w : Nat) : ServerEvent
deriving DecidableEq, Repr

/-- The event trace of one request through `process` / `recv_helper`:
with a registered handler, admit `estimate_request_size(payload_len)`,
send the reply and release the same weight in a `finally`; with no
handler, admit 28 bytes, send the unknown-verb reply and release 28.  In
both paths the admission precedes the gate check, so when the reply gate
is already closed the `with_gate` throw is swallowed and the release
never runs. -/
def processRequest (handlers : List Nat) (estimate : Nat → Nat)
    (replyFrameOf : Request → List Nat) (gateOpen : Bool) (r : Request) : List ServerEvent :=
  if r.msgType ∈ handlers then
    let w := estimate r.payloadLen
    if gateOpen then [.acquire w, .sendReply (replyFrameOf r), .release w]
    else [.acquire w]
  else if gateOpen then
    [.acquire 28, .sendReply (unknownVerbReplyFrame r.msgId r.msgType), .release 28]
  else [.acquire 28]

/-- The full event trace of a sequence of requests processed to
completion, in order. -/
def serverTrace (handlers : List Nat) (estimate : Nat → Nat)
    (replyFrameOf : Request → List Nat) (reqs : List Request) : List ServerEvent :=
  (reqs.map (processRequest handlers estimate replyFrameOf true)).flatten

/-- Modelled from the spec (§4.4): the per-connection admission counter is
a semaphore; `wait_for_resources(w)` suspends until at least `w` bytes are
available and then deducts them (`none` = the trace blocks and never
completes), `release_resources(w)` returns them. -/
def runEvents : Int → List ServerEvent → Option Int
  | avail, [] => some avail
  | avail, .acquire w :: es => if (w : Int) ≤ avail then runEvents (avail - w) es else none
  | avail, .sendReply _ :: es => runEvents avail es
  | avail, .release w :: es => runEvents (avail + w) es

/-- Every value taken by the admission counter along a trace (stopping
where the trace blocks). -/
def statesOf : Int → List ServerEvent → List Int
  | avail, [] => [avail]
  | avail, .acquire w :: es =>
    if (w : Int) ≤ avail then avail :: statesOf (avail - w) es else [avail]
  | avail, .sendReply _ :: es => avail :: statesOf avail es
  | avail, .release w :: es => avail :: statesOf (avail + w) es

/-! ### Frame header sizes (`request_frame`, `request_frame_with_timeout`,
`response_frame`, `send_negotiation_frame`) -/

/-- Model of `request_frame::header_size()` (line 781). -/
def requestFrameHeaderSize : Nat := 20

/-- Model of `request_frame_with_timeout::header_size()` (line 807). -/
def requestFrameWithTimeoutHeaderSize : Nat := 28

/-- Model of `response_frame::header_size()` (line 923). -/
def responseFrameHeaderSize : Nat := 12

/-- Modelled from the spec (§3): `sizeof(negotiation_frame)` -- the
struct is declared outside `src/`; the 8-byte magic plus the 4-byte
length give 12 bytes, matching the bytes `send_negotiation_frame`
writes before the feature records. -/
def negotiationFrameHeaderSize : Nat := 12

/-- Model of `negotiation_frame_feature_record_size` (line 622). -/
def featureRecordSize (e : Nat × List Nat) : Nat := 8 + e.2.length

/-- The `extra_len` accumulated over the feature map (lines 625-627). -/
def featuresLen (features : List (Nat × List Nat)) : Nat :=
  (features.map featureRecordSize).sum

/-- One encoded feature record: 4-byte feature id, 4-byte length, payload
(lines 633-639). -/
def encodeFeatureRecord (e : Nat × List Nat) : List Nat :=
  writeLeBytes 4 e.1 ++ writeLeBytes 4 e.2.length ++ e.2

/-- Model of `send_negotiation_frame` (lines 620-641): the 8-byte magic, the
4-byte `extra_len`, then the feature records. -/
def sendNegotiationFrame (magic : List Nat) (features : List (Nat × List Nat)) : List Nat :=
  magic ++ writeLeBytes 4 (featuresLen features) ++ (features.map encodeFeatureRecord).flatten

/-! ### A concrete serializer for evaluating the theorems -/

/-- A one-byte-per-value serializer over `V = Nat`, used to evaluate the
parametric theorems at concrete inputs. -/
def demoSerializer : Serializer Nat where
  write _ v := [v]
  writeOpt _ o := match o with | some v => [v] | none => []
  read _ input := (input.headD 0, input.tail)

/-! ## Theorems

### Codec lemmas -/

theorem writeLeBytes_length (n x : Nat) : (writeLeBytes n x).length = n := by
  induction n generalizing x with
  | zero => rfl
  | succ n ih => simp [writeLeBytes, ih]

theorem readLeBytes_cons (b : Nat) (bs : List Nat) :
    readLeBytes (b :: bs) = b + 256 * readLeBytes bs := rfl

theorem readLeBytes_writeLeBytes (n x : Nat) :
    readLeBytes (writeLeBytes n x) = x % 256 ^ n := by
  induction n generalizing x with
  | zero => simp [writeLeBytes, readLeBytes]; omega
  | succ n ih =>
    rw [writeLeBytes, readLeBytes_cons, ih]
    rw [Nat.pow_succ', Nat.mod_mul]

theorem readLeI64_writeLeI64 (x : Int) (hlo : -(2 ^ 63) ≤ x) (hhi : x < 2 ^ 63) :
    readLeI64 (writeLeI64 x) = x := by
  have hmod : (0 : Int) ≤ x % (2 ^ 64 : Int) := Int.emod_nonneg x (by norm_num)
  have hlt : x % (2 ^ 64 : Int) < (2 ^ 64 : Int) := Int.emod_lt_of_pos x (by norm_num)
  rw [readLeI64, writeLeI64, readLeBytes_writeLeBytes]
  have h256 : (256 : Nat) ^ 8 = 2 ^ 64 := by norm_num
  rw [h256]
  have htoNat : (x % (2 ^ 64 : Int)).toNat < 2 ^ 64 := by omega
  rw [Nat.mod_eq_of_lt htoNat]
  have hcast : (((x % (2 ^ 64 : Int)).toNat : Int)) = x % (2 ^ 64 : Int) := by omega
  by_cases hx : 0 ≤ x
  · have : x % (2 ^ 64 : Int) = x := Int.emod_eq_of_lt hx (by omega)
    simp only [this] at hcast ⊢
    have : (x % (2 ^ 64 : Int)).toNat < 2 ^ 63 := by omega
    simp only [if_pos this, hcast, this]
    omega
  · have hxneg : x < 0 := by omega
    have : x % (2 ^ 64 : Int) = x + 2 ^ 64 := by omega
    have hge : ¬ ((x % (2 ^ 64 : Int)).toNat < 2 ^ 63) := by omega
    simp only [if_neg hge]
    omega

/-! ### Marshaller lemmas -/

theorem doMarshall_allNoneOpt {V : Type} (s : Serializer V) (hoc : s.OptConvention)
    (args : List (RpcVal V)) (h : allNoneOpt args) : doMarshall s args = [] := by
  induction args with
  | nil => rfl
  | cons a r ih =>
    obtain ⟨t, rfl⟩ := h a (by simp)
    have hr : allNoneOpt r := fun x hx => h x (by simp [hx])
    simp only [doMarshall, marshallOne, hoc.2, List.nil_append]
    exact ih hr

theorem doUnmarshall_allNoneOpt {V : Type} (s : Serializer V)
    (args : List (RpcVal V)) (h : allNoneOpt args) :
    doUnmarshall s (args.map RpcVal.typeOf) [] = args := by
  induction args with
  | nil => rfl
  | cons a r ih =>
    obtain ⟨t, rfl⟩ := h a (by simp)
    have hr : allNoneOpt r := fun x hx => h x (by simp [hx])
    simp [doUnmarshall, unmarshalOne, RpcVal.typeOf]
    exact ih hr

theorem doUnmarshall_doMarshall {V : Type} (s : Serializer V)
    (hrt : s.RoundTrips) (hoc : s.OptConvention)
    (args : List (RpcVal V)) (hd : decodableArgs s args) :
    doUnmarshall s (args.map RpcVal.typeOf) (doMarshall s args) = args := by
  induction args with
  | nil => rfl
  | cons a r ih =>
    cases a with
    | plain t v =>
      simp only [decodableArgs] at hd
      simp only [doMarshall, List.map_cons, marshallOne, RpcVal.typeOf,
        doUnmarshall, unmarshalOne, hrt t v]
      exact congrArg _ (ih hd)
    | opt t o =>
      cases o with
      | some v =>
        obtain ⟨hne, hr⟩ := hd
        have hpos : 0 < (s.write t v ++ doMarshall s r).length := by
          cases hw : s.write t v with
          | nil => exact absurd hw hne
          | cons b bs => simp [hw]
        simp only [doMarshall, List.map_cons, marshallOne, RpcVal.typeOf,
          doUnmarshall, unmarshalOne, hoc.1 t v, if_pos hpos, hrt t v]
        exact congrArg _ (ih hr)
      | none =>
        have hmr : doMarshall s r = [] := doMarshall_allNoneOpt s hoc r hd
        simp only [doMarshall, List.map_cons, marshallOne, RpcVal.typeOf,
          doUnmarshall, unmarshalOne, hoc.2 t, hmr, List.append_nil, List.nil_append,
          List.length_nil, lt_irrefl, if_false]
        exact congrArg _ (doUnmarshall_allNoneOpt s r hd)

/-! ### List slicing helpers -/

theorem take_append_eq_of_length {α : Type} (l₁ l₂ : List α) (n : Nat)
    (h : l₁.length = n) : (l₁ ++ l₂).take n = l₁ := by
  subst h
  induction l₁ with
  | nil => simp
  | cons a r ih => simp [ih]

theorem drop_append_eq_of_length {α : Type} (l₁ l₂ : List α) (n : Nat)
    (h : l₁.length = n) : (l₁ ++ l₂).drop n = l₂ := by
  subst h
  induction l₁ with
  | nil => simp
  | cons a r ih => simp [ih]

/-! ### Claim C1: marshall / unmarshall round-trip -/

/-- C1.  For every serializer honouring its read/write contract and the
optional wire convention, and every decodable tuple of typed arguments,
encoding with `marshall` under any `head_space` and then decoding the
payload after the `head_space` with `unmarshall` at the same declared
types yields the original tuple. -/
theorem marshall_unmarshall_roundtrip {V : Type} (s : Serializer V)
    (headSpace : Nat) (args : List (RpcVal V))
    (hrt : s.RoundTrips) (hoc : s.OptConvention) (hd : decodableArgs s args) :
    unmarshall s (args.map RpcVal.typeOf) ((marshall s headSpace args).drop headSpace) = args := by
  rw [marshall, drop_append_eq_of_length _ _ headSpace (List.length_replicate headSpace 0)]
  exact doUnmarshall_doMarshall s hrt hoc args hd

/-- C1, evaluated: a ground argument followed by a present optional and a
trailing absent optional round-trips through the demo serializer with the
28-byte request head space. -/
theorem marshall_unmarshall_roundtrip_witness :
    unmarshall demoSerializer [RpcType.plain 0, RpcType.opt 1, RpcType.opt 2]
      ((marshall demoSerializer 28
        [RpcVal.plain 0 5, RpcVal.opt 1 (some 7), RpcVal.opt 2 none]).drop 28) =
      [RpcVal.plain 0 5, RpcVal.opt 1 (some 7), RpcVal.opt 2 none] :=
  marshall_unmarshall_roundtrip demoSerializer 28
    [RpcVal.plain 0 5, RpcVal.opt 1 (some 7), RpcVal.opt 2 none]
    (fun _ v rest => rfl)
    ⟨fun _ _ => rfl, fun _ => rfl⟩
    (by simp [decodableArgs, demoSerializer, allNoneOpt])

/-! ### Claim C2: optional parameters consume input only when bytes remain -/

/-- C2.  Decoding a declared `optional<T>` parameter consumes a `T`
(exactly the bytes the serializer's `read` consumes) precisely when input
bytes remain at that position, and otherwise returns the empty optional
without consuming anything. -/
theorem unmarshalOne_optional_spec {V : Type} (s : Serializer V) (t : Nat)
    (input : List Nat) :
    (0 < input.length →
      unmarshalOne s (.opt t) input = (.opt t (some (s.read t input).1), (s.read t input).2)) ∧
    (input.length = 0 → unmarshalOne s (.opt t) input = (.opt t none, input)) := by
  constructor
  · intro h
    simp [unmarshalOne, if_pos h]
  · intro h
    simp [unmarshalOne, h]

/-- C2, evaluated: with one byte remaining the optional consumes it; with
no bytes remaining it decodes to the empty optional. -/
theorem unmarshalOne_optional_spec_witness :
    (unmarshalOne demoSerializer (.opt 1) [9] =
      (.opt 1 (some (demoSerializer.read 1 [9]).1), (demoSerializer.read 1 [9]).2)) ∧
    (unmarshalOne demoSerializer (.opt 1) [] = (.opt 1 none, [])) :=
  ⟨(unmarshalOne_optional_spec demoSerializer 1 [9]).1 (by decide),
   (unmarshalOne_optional_spec demoSerializer 1 []).2 rfl⟩

/-! ### Claim C9: the UNKNOWN_VERB length field is read but never checked -/

/-- Evaluation of `unmarshal_exception` on a record of kind 1
(`UNKNOWN_VERB`) with an arbitrary length field. -/
theorem unmarshalException_kind1_eval (exLen : Nat) (payload : List Nat) :
    (8 ≤ payload.length →
      unmarshalException (writeLeBytes 4 1 ++ (writeLeBytes 4 exLen ++ payload)) =
        .ok (.unknownVerb (readLeBytes (payload.take 8)))) ∧
    (payload.length < 8 →
      unmarshalException (writeLeBytes 4 1 ++ (writeLeBytes 4 exLen ++ payload)) =
        .error .rpcProtocolError) := by
  have h1 : (writeLeBytes 4 1).length = 4 := writeLeBytes_length 4 1
  have h2 : (writeLeBytes 4 exLen).length = 4 := writeLeBytes_length 4 exLen
  have htake : (writeLeBytes 4 1 ++ (writeLeBytes 4 exLen ++ payload)).take 4 =
      writeLeBytes 4 1 := take_append_eq_of_length _ _ _ h1
  have hdrop : (writeLeBytes 4 1 ++ (writeLeBytes 4 exLen ++ payload)).drop 4 =
      writeLeBytes 4 exLen ++ payload := drop_append_eq_of_length _ _ _ h1
  have hdrop2 : (writeLeBytes 4 exLen ++ payload).drop 4 = payload :=
    drop_append_eq_of_length _ _ _ h2
  have hkind : readLeBytes (writeLeBytes 4 1) = 1 := by
    rw [readLeBytes_writeLeBytes]
    norm_num
  have hlen : ¬ ((writeLeBytes 4 1 ++ (writeLeBytes 4 exLen ++ payload)).length < 4) := by
    simp [h1, h2]
  have hlen2 : ¬ ((writeLeBytes 4 exLen ++ payload).length < 4) := by
    simp [h2]
  constructor
  · intro h
    simp only [unmarshalException, if_neg hlen, htake, hdrop, if_neg hlen2, hdrop2, hkind,
      if_neg (by omega : ¬ (1 = 0)), if_pos rfl, if_neg (by omega : ¬ (payload.length < 8)),
      if_true]
  · intro h
    simp only [unmarshalException, if_neg hlen, htake, hdrop, if_neg hlen2, hdrop2, hkind,
      if_neg (by omega : ¬ (1 = 0)), if_pos rfl, if_pos h, if_true]

/-- C9.  Decoding an `UNKNOWN_VERB` exception record reads the 4-byte
length field but never checks it: for every value of the length field the
decoder consumes exactly 8 payload bytes as the offending message type,
and it throws `rpc_protocol_error` exactly when fewer than 8 payload
bytes remain. -/
theorem unknownVerb_ignores_length_field (exLen : Nat) (payload : List Nat) :
    (8 ≤ payload.length →
      unmarshalException (writeLeBytes 4 1 ++ (writeLeBytes 4 exLen ++ payload)) =
        .ok (.unknownVerb (readLeBytes (payload.take 8)))) ∧
    (payload.length < 8 →
      unmarshalException (writeLeBytes 4 1 ++ (writeLeBytes 4 exLen ++ payload)) =
        .error .rpcProtocolError) :=
  unmarshalException_kind1_eval exLen payload

/-- C9, evaluated: a declared length of 999 is ignored -- the decoder
still consumes 8 bytes and returns the type they spell; with only 7
payload bytes it throws `rpc_protocol_error`. -/
theorem unknownVerb_ignores_length_field_witness :
    (unmarshalException (writeLeBytes 4 1 ++ (writeLeBytes 4 999 ++ [42, 0, 0, 0, 0, 0, 0, 0])) =
      .ok (.unknownVerb (readLeBytes ([42, 0, 0, 0, 0, 0, 0, 0].take 8)))) ∧
    (unmarshalException (writeLeBytes 4 1 ++ (writeLeBytes 4 999 ++ [42, 0, 0, 0, 0, 0, 0])) =
      .error .rpcProtocolError) :=
  ⟨(unknownVerb_ignores_length_field 999 [42, 0, 0, 0, 0, 0, 0, 0]).1 (by decide),
   (unknownVerb_ignores_length_field 999 [42, 0, 0, 0, 0, 0, 0]).2 (by decide)⟩

/-! ### Claim C5: unknown exception kinds and the error state (corrected)

The claim says every decoded exception record with a kind other than
`USER` or `UNKNOWN_VERB` transitions the connection to the error state.
The code does this only when no pending entry matches the message id:
with a matching entry the reply handler delivers
`unknown_exception_error` to the pending future and the connection stays
healthy (lines 989-992 hand the payload to the handler, whose negative-id
path at lines 283-287 only fails the promise). -/

/-- C5 counterexample.  A response with id `-3` whose payload has
exception kind 2 (neither `USER` nor `UNKNOWN_VERB`), arriving while
entry 3 is pending, leaves the connection out of the error state. -/
theorem unknown_kind_with_pending_entry_no_error :
    (handleResponse ⟨false, 5, [3], [], 0, 0, []⟩ (-3)
        (some (writeLeBytes 4 2 ++ writeLeBytes 4 0))).error = false := by
  decide

/-- C5 as amended.  When the client decodes an exception record of a kind
that is neither `USER` nor `UNKNOWN_VERB`, the connection transitions to
the error state exactly when no pending entry matches the message id;
with a matching entry the exception is delivered to that entry's future
and the error flag is unchanged. -/
theorem unknown_kind_error_iff_unmatched (st : ClientState) (msgId : Int) (d : List Nat)
    (hneg : msgId < 0)
    (hdec : unmarshalException d = .ok .unknownException) :
    (st.outstanding.contains msgId.natAbs = false →
      (handleResponse st msgId (some d)).error = true) ∧
    (st.outstanding.contains msgId.natAbs = true →
      (handleResponse st msgId (some d)).error = st.error) := by
  constructor
  · intro h
    simp only [handleResponse, h, Bool.false_eq_true, if_false, if_pos hneg, hdec]
  · intro h
    simp only [handleResponse, h, if_true, if_neg (by omega : ¬ (0 ≤ msgId)), hdec]

/-- C5 as amended, evaluated: the same kind-2 record poisons the
connection when entry 3 is absent, and leaves the error flag alone when
entry 3 is pending. -/
theorem unknown_kind_error_iff_unmatched_witness :
    (([] : List Nat).contains (Int.natAbs (-3)) = false →
      (handleResponse ⟨false, 5, [], [], 0, 0, []⟩ (-3)
        (some (writeLeBytes 4 2 ++ writeLeBytes 4 0))).error = true) ∧
    (([] : List Nat).contains (Int.natAbs (-3)) = true →
      (handleResponse ⟨false, 5, [], [], 0, 0, []⟩ (-3)
        (some (writeLeBytes 4 2 ++ writeLeBytes 4 0))).error = false) :=
  unknown_kind_error_iff_unmatched ⟨false, 5, [], [], 0, 0, []⟩ (-3)
    (writeLeBytes 4 2 ++ writeLeBytes 4 0) (by decide) rfl

/-! ### Claim C6: calls on an errored connection fail immediately -/

/-- C6.  A client call issued while the connection is in the error state
returns the ready-failed `closed_error` result and leaves the state
untouched: no message id is allocated, no pending-reply entry is
installed, and nothing is enqueued for sending. -/
theorem send_on_error_returns_closed (V : Type) (s : Serializer V) (st : ClientState)
    (t : Nat) (args : List (RpcVal V)) (wantReply : Bool)
    (herr : st.error = true) :
    clientSend s st t args wantReply = (st, .failedClosed) := by
  simp [clientSend, herr]

/-- C6, evaluated on an errored connection with counter 5 and a pending
entry: the call fails with `closed_error` and the state is returned
verbatim. -/
theorem send_on_error_returns_closed_witness :
    clientSend demoSerializer ⟨true, 5, [3], [], 1, 0, []⟩ 7 [RpcVal.plain 0 9] true =
      (⟨true, 5, [3], [], 1, 0, []⟩, .failedClosed) :=
  send_on_error_returns_closed Nat demoSerializer ⟨true, 5, [3], [], 1, 0, []⟩ 7
    [RpcVal.plain 0 9] true rfl

/-! ### Claim C7: pending reply handlers complete exactly once (corrected)

The claim says every pending reply handler completes its future exactly
once, with `closed_error` on an undelivered drop.  The code has a fourth,
reachable lifecycle: on a negative-id reply with a truncated exception
record, the reply lambda executes `r.done = true` (line 285) and then
`unmarshal_exception(data)` -- evaluated as the argument of
`set_exception` (line 286) -- throws, so `set_exception` never runs and
the `!done` guard in `~rcv_reply_base` skips the `closed_error`: the
handler is destroyed with zero completions, and its entry was already
erased from `_outstanding`, out of reach of teardown's `clear()`. -/

/-- C7 counterexample.  The decode-throw lifecycle destroys the handler
with zero completions: no value, no exception, and no `closed_error`
despite never having delivered anything, so the promise is not completed
exactly once. -/
theorem decode_throw_drops_handler_without_completion :
    (runFate (HandlerFate.decodeThrew : HandlerFate Nat)).completions = [] := by
  simp [runFate, RcvReplyBase.destruct, RcvReplyBase.fresh]

/-- C7 as amended.  Every pending reply handler completes its future at
most once, and exactly once in every lifecycle except the decode-throw
path, which completes zero times; a handler dropped with `done` still
false (never invoked) is fulfilled with `closed_error`, so clearing `n`
still-pending (never-invoked) entries at connection teardown completes
each of their futures exactly once with `closed_error`. -/
theorem pending_reply_completes_at_most_once (α : Type) (f : HandlerFate α) :
    (runFate f).completions.length ≤ 1 ∧
    (f ≠ .decodeThrew → (runFate f).completions.length = 1) ∧
    (f = .neverInvoked → (runFate f).completions = [.error .closedError]) ∧
    (∀ n : Nat,
      (List.replicate n (HandlerFate.neverInvoked : HandlerFate α)).map
          (fun g => (runFate g).completions) =
        List.replicate n [.error .closedError]) := by
  refine ⟨?_, ?_, ?_, ?_⟩
  · cases f <;>
      simp [runFate, RcvReplyBase.destruct, RcvReplyBase.fresh, RcvReplyBase.setValue,
        RcvReplyBase.setException]
  · intro hne
    cases f with
    | neverInvoked =>
      simp [runFate, RcvReplyBase.destruct, RcvReplyBase.fresh]
    | replyValue v =>
      simp [runFate, RcvReplyBase.destruct, RcvReplyBase.fresh, RcvReplyBase.setValue]
    | replyException e =>
      simp [runFate, RcvReplyBase.destruct, RcvReplyBase.fresh, RcvReplyBase.setException]
    | decodeThrew => exact absurd rfl hne
  · rintro rfl
    simp [runFate, RcvReplyBase.destruct, RcvReplyBase.fresh]
  · intro n
    induction n with
    | zero => rfl
    | succ n ih =>
      simp only [List.replicate_succ, List.map_cons, ih]
      rfl

/-- C7 as amended, evaluated: a handler dropped without invocation
completes once with `closed_error`, and tearing down pending entries
yields one `closed_error` each. -/
theorem pending_reply_completes_at_most_once_witness :
    (runFate (HandlerFate.neverInvoked : HandlerFate Nat)).completions.length ≤ 1 ∧
    ((HandlerFate.neverInvoked : HandlerFate Nat) ≠ .decodeThrew →
      (runFate (HandlerFate.neverInvoked : HandlerFate Nat)).completions.length = 1) ∧
    ((HandlerFate.neverInvoked : HandlerFate Nat) = .neverInvoked →
      (runFate (HandlerFate.neverInvoked : HandlerFate Nat)).completions =
        [.error .closedError]) ∧
    (∀ n : Nat,
      (List.replicate n (HandlerFate.neverInvoked : HandlerFate Nat)).map
          (fun g => (runFate g).completions) =
        List.replicate n [.error .closedError]) :=
  pending_reply_completes_at_most_once Nat HandlerFate.neverInvoked

/-! ### Claim C10: only synchronous `std::runtime_error` throws are caught -/

/-- C10.  Invoking a handler through `apply`: a synchronous throw derived
from `std::runtime_error` is caught and becomes a failed future (which
the `reply` path then serializes as a `USER` exception record carrying
the message), while a synchronous throw not derived from
`std::runtime_error` propagates out of the dispatch path uncaught;
returned values and already-failed futures pass through. -/
theorem apply_catches_only_runtime_error (α : Type) (v : α) (e : RpcError)
    (m : List Nat) (msgId : Int) (V : Type) (s : Serializer V)
    (hm : m.length < 2 ^ 32) :
    rpcApply (HandlerBehavior.returns v) = .ok (.ok v) ∧
    rpcApply (α := α) (HandlerBehavior.failedFuture e) = .ok (.error e) ∧
    rpcApply (α := α) (HandlerBehavior.throwsRuntimeError m) = .ok (.error (.userError m)) ∧
    rpcApply (α := α) HandlerBehavior.throwsOther = .error () ∧
    unmarshalException ((serverReply s msgId (Except.error m)).drop 12) = .ok (.user m) := by
  refine ⟨rfl, rfl, rfl, rfl, ?_⟩
  have hid : (writeLeI64 (-msgId)).length = 8 := writeLeBytes_length 8 _
  have h16 : (writeLeBytes 4 (8 + m.length)).length = 4 := writeLeBytes_length 4 _
  have h0 : (writeLeBytes 4 0).length = 4 := writeLeBytes_length 4 0
  have hml : (writeLeBytes 4 m.length).length = 4 := writeLeBytes_length 4 _
  have hdropFrame :
      (serverReply s msgId (Except.error m)).drop 12 =
        writeLeBytes 4 0 ++ (writeLeBytes 4 m.length ++ m) := by
    show (writeLeI64 (-msgId) ++ writeLeBytes 4 (8 + m.length) ++
        writeLeBytes 4 0 ++ writeLeBytes 4 m.length ++ m).drop 12 = _
    rw [List.append_assoc, List.append_assoc, List.append_assoc,
      ← List.append_assoc (writeLeI64 (-msgId))]
    exact drop_append_eq_of_length _ _ 12 (by rw [List.length_append, hid, h16])
  rw [hdropFrame]
  have htake : (writeLeBytes 4 0 ++ (writeLeBytes 4 m.length ++ m)).take 4 =
      writeLeBytes 4 0 := take_append_eq_of_length _ _ _ h0
  have hdrop : (writeLeBytes 4 0 ++ (writeLeBytes 4 m.length ++ m)).drop 4 =
      writeLeBytes 4 m.length ++ m := drop_append_eq_of_length _ _ _ h0
  have htake2 : (writeLeBytes 4 m.length ++ m).take 4 = writeLeBytes 4 m.length :=
    take_append_eq_of_length _ _ _ hml
  have hdrop2 : (writeLeBytes 4 m.length ++ m).drop 4 = m :=
    drop_append_eq_of_length _ _ _ hml
  have hkind : readLeBytes (writeLeBytes 4 0) = 0 := by
    rw [readLeBytes_writeLeBytes]
    norm_num
  have hlenfld : readLeBytes (writeLeBytes 4 m.length) = m.length := by
    rw [readLeBytes_writeLeBytes]
    exact Nat.mod_eq_of_lt (by norm_num at hm ⊢; omega)
  have hlen : ¬ ((writeLeBytes 4 0 ++ (writeLeBytes 4 m.length ++ m)).length < 4) := by
    simp [h0, hml]
  have hlen2 : ¬ ((writeLeBytes 4 m.length ++ m).length < 4) := by
    simp [hml]
  simp only [unmarshalException, if_neg hlen, htake, hdrop, if_neg hlen2, htake2, hdrop2,
    hkind, hlenfld, if_pos rfl, if_neg (lt_irrefl m.length), if_true,
    List.take_length]

/-- C10, evaluated: a handler throwing `runtime_error("hi")` produces a
failed future that serializes as a `USER` record carrying `"hi"`, while a
non-`runtime_error` throw escapes uncaught. -/
theorem apply_catches_only_runtime_error_witness :
    rpcApply (HandlerBehavior.returns 1) = .ok (.ok 1) ∧
    rpcApply (α := Nat) (HandlerBehavior.failedFuture .closedError) =
      .ok (.error .closedError) ∧
    rpcApply (α := Nat) (HandlerBehavior.throwsRuntimeError [104, 105]) =
      .ok (.error (.userError [104, 105])) ∧
    rpcApply (α := Nat) HandlerBehavior.throwsOther = .error () ∧
    unmarshalException ((serverReply demoSerializer 7 (Except.error [104, 105])).drop 12) =
      .ok (.user [104, 105]) :=
  apply_catches_only_runtime_error Nat 1 RpcError.closedError [104, 105] 7 Nat
    demoSerializer (by decide)

/-! ### Semaphore trace lemmas -/

theorem runEvents_append (a : Int) (es₁ es₂ : List ServerEvent) :
    runEvents a (es₁ ++ es₂) = (runEvents a es₁).bind (fun b => runEvents b es₂) := by
  induction es₁ generalizing a with
  | nil => rfl
  | cons e es ih =>
    cases e with
    | acquire w =>
      simp only [List.cons_append, runEvents]
      split
      · exact ih _
      · rfl
    | sendReply f => simpa only [List.cons_append, runEvents] using ih a
    | release w => simpa only [List.cons_append, runEvents] using ih (a + w)

theorem runEvents_processRequest (handlers : List Nat) (estimate : Nat → Nat)
    (replyF : Request → List Nat) (a b : Int) (r : Request)
    (h : runEvents a (processRequest handlers estimate replyF true r) = some b) :
    b = a := by
  by_cases hc : r.msgType ∈ handlers
  · simp only [processRequest, if_pos hc, if_true, runEvents] at h
    split at h
    · simp only [runEvents, Option.some.injEq] at h
      omega
    · exact absurd h (by simp)
  · simp only [processRequest, if_neg hc, if_true, runEvents] at h
    split at h
    · simp only [runEvents, Option.some.injEq] at h
      omega
    · exact absurd h (by simp)

theorem statesOf_nonneg (es : List ServerEvent) (a : Int) (ha : 0 ≤ a) :
    ∀ x ∈ statesOf a es, 0 ≤ x := by
  induction es generalizing a with
  | nil =>
    intro x hx
    simp only [statesOf, List.mem_singleton] at hx
    omega
  | cons e es ih =>
    cases e with
    | acquire w =>
      intro x hx
      simp only [statesOf] at hx
      split at hx
      · rcases List.mem_cons.mp hx with rfl | hx'
        · exact ha
        · exact ih (a - w) (by omega) x hx'
      · simp only [List.mem_singleton] at hx
        omega
    | sendReply f =>
      intro x hx
      rcases List.mem_cons.mp hx with rfl | hx'
      · exact ha
      · exact ih a ha x hx'
    | release w =>
      intro x hx
      rcases List.mem_cons.mp hx with rfl | hx'
      · exact ha
      · exact ih (a + w) (by omega) x hx'

theorem runEvents_serverTrace (handlers : List Nat) (estimate : Nat → Nat)
    (replyF : Request → List Nat) (reqs : List Request) (m final : Int)
    (h : runEvents m (serverTrace handlers estimate replyF reqs) = some final) :
    final = m := by
  induction reqs generalizing m with
  | nil =>
    simp only [serverTrace, List.map_nil, List.flatten_nil, runEvents,
      Option.some.injEq] at h
    omega
  | cons r rs ih =>
    simp only [serverTrace, List.map_cons, List.flatten_cons, runEvents_append] at h
    cases hr : runEvents m (processRequest handlers estimate replyF true r) with
    | none => rw [hr] at h; exact absurd h (by simp)
    | some b =>
      rw [hr] at h
      have h' : runEvents b (serverTrace handlers estimate replyF rs) = some final := h
      have hb : b = m := runEvents_processRequest handlers estimate replyF m b r hr
      subst hb
      exact ih b h'

/-! ### Claim C3: resource admissions balance exactly -/

/-- C3.  On a server connection every admission is matched by a release
of the same weight placed after the reply is handed to the writer
(success, handler exception and unknown verb alike): each completed
request's trace is `acquire w, sendReply, release w`; consequently after
any finite sequence of requests completes the admission counter returns
to `max_memory`, and the counter is never negative in between. -/
theorem server_resources_balanced (handlers : List Nat) (estimate : Nat → Nat)
    (replyF : Request → List Nat) (maxMemory : Int) (reqs : List Request) (final : Int)
    (hrun : runEvents maxMemory (serverTrace handlers estimate replyF reqs) = some final) :
    final = maxMemory ∧
    (0 ≤ maxMemory →
      ∀ x ∈ statesOf maxMemory (serverTrace handlers estimate replyF reqs), 0 ≤ x) ∧
    (∀ r : Request, ∃ w frame,
      processRequest handlers estimate replyF true r =
        [.acquire w, .sendReply frame, .release w]) := by
  refine ⟨runEvents_serverTrace handlers estimate replyF reqs maxMemory final hrun,
    fun hm => statesOf_nonneg _ maxMemory hm, fun r => ?_⟩
  by_cases hc : r.msgType ∈ handlers
  · exact ⟨estimate r.payloadLen, replyF r, by simp [processRequest, if_pos hc]⟩
  · exact ⟨28, unknownVerbReplyFrame r.msgId r.msgType, by simp [processRequest, if_neg hc]⟩

/-- C3, evaluated: a registered call of weight 50 followed by an unknown
verb, from a budget of 100, returns the counter to 100 with every
intermediate value non-negative. -/
theorem server_resources_balanced_witness :
    ((100 : Int) = 100 ∧
      ((0 : Int) ≤ 100 →
        ∀ x ∈ statesOf 100 (serverTrace [1] (fun n => n + 40) (fun _ => [])
          [⟨1, 1, 10⟩, ⟨2, 999, 0⟩]), 0 ≤ x) ∧
      (∀ r : Request, ∃ w frame,
        processRequest [1] (fun n => n + 40) (fun _ => []) true r =
          [.acquire w, .sendReply frame, .release w])) :=
  server_resources_balanced [1] (fun n => n + 40) (fun _ => []) 100
    [⟨1, 1, 10⟩, ⟨2, 999, 0⟩] 100 (by decide)

/-! ### Claim C4: the unknown-verb reply -/

/-- C4.  A request whose message type has no registered handler is
processed by admitting exactly 28 bytes, sending a response frame whose
id is the negation of the request id and whose 16-byte payload is an
exception record of kind `UNKNOWN_VERB` with declared length 8 carrying
the offending message type, and then releasing the 28 bytes. -/
theorem unknown_verb_reply_spec (handlers : List Nat) (estimate : Nat → Nat)
    (replyF : Request → List Nat) (msgId : Int) (ty : Nat) (len : Nat)
    (hno : ty ∉ handlers)
    (hlo : -(2 ^ 63) < msgId) (hhi : msgId < 2 ^ 63) (hty : ty < 2 ^ 64) :
    processRequest handlers estimate replyF true ⟨msgId, ty, len⟩ =
      [.acquire 28, .sendReply (unknownVerbReplyFrame msgId ty), .release 28] ∧
    (unknownVerbReplyFrame msgId ty).length = 28 ∧
    readLeI64 ((unknownVerbReplyFrame msgId ty).take 8) = -msgId ∧
    readLeBytes (((unknownVerbReplyFrame msgId ty).drop 8).take 4) = 16 ∧
    unmarshalException ((unknownVerbReplyFrame msgId ty).drop 12) =
      .ok (.unknownVerb ty) ∧
    readLeBytes (((unknownVerbReplyFrame msgId ty).drop 16).take 4) = 8 := by
  have hA : (writeLeI64 (-msgId)).length = 8 := writeLeBytes_length 8 _
  have hB : (writeLeBytes 4 16).length = 4 := writeLeBytes_length 4 16
  have hC : (writeLeBytes 4 1).length = 4 := writeLeBytes_length 4 1
  have hD : (writeLeBytes 4 8).length = 4 := writeLeBytes_length 4 8
  have hE : (writeLeBytes 8 ty).length = 8 := writeLeBytes_length 8 ty
  have hfr : unknownVerbReplyFrame msgId ty =
      writeLeI64 (-msgId) ++ (writeLeBytes 4 16 ++
        (writeLeBytes 4 1 ++ (writeLeBytes 4 8 ++ writeLeBytes 8 ty))) := by
    simp [unknownVerbReplyFrame, List.append_assoc]
  refine ⟨by simp [processRequest, hno], ?_, ?_, ?_, ?_, ?_⟩
  · simp [unknownVerbReplyFrame, hA, hB, hC, hD, hE]
  · rw [hfr, take_append_eq_of_length _ _ 8 hA]
    exact readLeI64_writeLeI64 (-msgId) (by omega) (by omega)
  · rw [hfr, drop_append_eq_of_length _ _ 8 hA, take_append_eq_of_length _ _ 4 hB,
      readLeBytes_writeLeBytes]
    norm_num
  · have hfr12 : unknownVerbReplyFrame msgId ty =
        (writeLeI64 (-msgId) ++ writeLeBytes 4 16) ++
          (writeLeBytes 4 1 ++ (writeLeBytes 4 8 ++ writeLeBytes 8 ty)) := by
      simp [unknownVerbReplyFrame, List.append_assoc]
    rw [hfr12, drop_append_eq_of_length _ _ 12 (by simp [hA, hB]),
      (unmarshalException_kind1_eval 8 (writeLeBytes 8 ty)).1 (by omega),
      List.take_of_length_le (by omega), readLeBytes_writeLeBytes]
    congr 2
    have : (256 : Nat) ^ 8 = 2 ^ 64 := by norm_num
    rw [this]
    exact Nat.mod_eq_of_lt hty
  · have hfr16 : unknownVerbReplyFrame msgId ty =
        ((writeLeI64 (-msgId) ++ writeLeBytes 4 16) ++ writeLeBytes 4 1) ++
          (writeLeBytes 4 8 ++ writeLeBytes 8 ty) := by
      simp [unknownVerbReplyFrame, List.append_assoc]
    rw [hfr16, drop_append_eq_of_length _ _ 16 (by simp [hA, hB, hC]),
      take_append_eq_of_length _ _ 4 hD, readLeBytes_writeLeBytes]
    norm_num

/-- C4, evaluated at message id 3 and type 999 with an empty handler
map. -/
theorem unknown_verb_reply_spec_witness :
    processRequest [] (fun n => n) (fun _ => []) true ⟨3, 999, 0⟩ =
      [.acquire 28, .sendReply (unknownVerbReplyFrame 3 999), .release 28] ∧
    (unknownVerbReplyFrame 3 999).length = 28 ∧
    readLeI64 ((unknownVerbReplyFrame 3 999).take 8) = -3 ∧
    readLeBytes (((unknownVerbReplyFrame 3 999).drop 8).take 4) = 16 ∧
    unmarshalException ((unknownVerbReplyFrame 3 999).drop 12) =
      .ok (.unknownVerb 999) ∧
    readLeBytes (((unknownVerbReplyFrame 3 999).drop 16).take 4) = 8 :=
  unknown_verb_reply_spec [] (fun n => n) (fun _ => []) 3 999 0 (by decide)
    (by decide) (by decide) (by decide)

/-! ### Claim C8: fixed frame header sizes -/

theorem length_flatten_encodeFeatures (features : List (Nat × List Nat)) :
    ((features.map encodeFeatureRecord).flatten).length = featuresLen features := by
  induction features with
  | nil => rfl
  | cons e es ih =>
    simp only [List.map_cons, List.flatten_cons, List.length_append, ih, featuresLen,
      List.map_cons, List.sum_cons, encodeFeatureRecord, featureRecordSize,
      writeLeBytes_length]

/-- C8.  The frame header sizes are the fixed constants the spec states:
negotiation 12, request 20, request-with-timeout 28, response 12 -- and
the frames the code builds match them: a negotiation frame is the 12-byte
header followed by the feature records, a client request frame is the
28-byte header followed by the marshalled payload, and a success response
frame is the 12-byte header followed by the marshalled payload. -/
theorem frame_header_sizes (magic : List Nat) (features : List (Nat × List Nat))
    (V : Type) (s : Serializer V) (t : Nat) (msgId : Int) (args : List (RpcVal V))
    (hmagic : magic.length = 8) :
    negotiationFrameHeaderSize = 12 ∧ requestFrameHeaderSize = 20 ∧
    requestFrameWithTimeoutHeaderSize = 28 ∧ responseFrameHeaderSize = 12 ∧
    (sendNegotiationFrame magic features).length =
      negotiationFrameHeaderSize + featuresLen features ∧
    (requestFrameBytes s t msgId args).length =
      requestFrameWithTimeoutHeaderSize + (doMarshall s args).length ∧
    (serverReply s msgId (Except.ok args)).length =
      responseFrameHeaderSize + (doMarshall s args).length := by
  refine ⟨rfl, rfl, rfl, rfl, ?_, ?_, ?_⟩
  · simp only [sendNegotiationFrame, List.length_append, hmagic, writeLeBytes_length,
      length_flatten_encodeFeatures, negotiationFrameHeaderSize]
  · simp only [requestFrameBytes, List.length_append, List.length_replicate,
      writeLeBytes_length, writeLeI64, requestFrameWithTimeoutHeaderSize]
  · simp only [serverReply, List.length_append, writeLeBytes_length, writeLeI64,
      responseFrameHeaderSize]

/-- C8, evaluated with an 8-byte magic, one feature record, and a
one-argument payload. -/
theorem frame_header_sizes_witness :
    negotiationFrameHeaderSize = 12 ∧ requestFrameHeaderSize = 20 ∧
    requestFrameWithTimeoutHeaderSize = 28 ∧ responseFrameHeaderSize = 12 ∧
    (sendNegotiationFrame [1, 2, 3, 4, 5, 6, 7, 8] [(0, [9])]).length =
      negotiationFrameHeaderSize + featuresLen [(0, [9])] ∧
    (requestFrameBytes demoSerializer 7 1 [RpcVal.plain 0 5]).length =
      requestFrameWithTimeoutHeaderSize + (doMarshall demoSerializer [RpcVal.plain 0 5]).length ∧
    (serverReply demoSerializer 1 (Except.ok [RpcVal.plain 0 5])).length =
      responseFrameHeaderSize + (doMarshall demoSerializer [RpcVal.plain 0 5]).length :=
  frame_header_sizes [1, 2, 3, 4, 5, 6, 7, 8] [(0, [9])] Nat demoSerializer 7 1
    [RpcVal.plain 0 5] rfl

end SeastarRpc
